import Mathlib

/-!
liac: role discovery and targeted command dispatch.

Shallow embedding of `main.go`: the six command operations
(`GitPullCommand`, `RunLocustMasterCommand`, `RunLocustWorkerCommand`,
`RePullGitRepoCommand`, `StopLocustWorkerCommand`, `StopLocustMasterCommand`)
and the `stop all` action of the command-line application.

Effects are explicit. A `World` carries the state of the run-command service,
the log of the requests submitted to it and what was written to standard
output. `os.Getenv` is a function from variable names to values (an unset
variable reads as the empty string). The `context.Context` argument of the
operations is handed to the service untouched and is left out.
-/

namespace Liac

/-! ## Data model -/

/-- Tag of a compute instance (`types.Tag`). Both fields are pointers in the Go
SDK; an absent one is `none`. -/
structure Tag where
  Key : Option String
  Value : Option String
deriving DecidableEq, Repr

/-- Instance descriptor (`types.Instance`), with the two fields the program reads.
`PrivateIpAddress` is a pointer, absent until the address is assigned. -/
structure Instance where
  Tags : List Tag
  PrivateIpAddress : Option String
deriving DecidableEq, Repr

/-- Reservation (`types.Reservation`): an ordered list of instances. -/
structure Reservation where
  Instances : List Instance
deriving DecidableEq, Repr

/-- Target filter of a request (`types.Target`). -/
structure Target where
  Key : Option String
  Values : List String
deriving DecidableEq, Repr

/-- Request to the run-command service (`ssm.SendCommandInput`), with the four
fields the program sets. The Go map `Parameters` is a list of key/value pairs. -/
structure SendCommandInput where
  DocumentName : Option String
  Comment : Option String
  Parameters : List (String × List String)
  Targets : List Target
deriving DecidableEq, Repr

/-- Pointer to a string (`aws.String`): never nil. -/
def awsString (s : String) : Option String := some s

/-- Process environment: `os.Getenv`, the empty string for an unset variable. -/
abbrev Environment := String → String

/-- Run-time panic of the Go program. -/
inductive Panic where
  | explicit (msg : String)
  | nilDereference
deriving DecidableEq, Repr

/-- Result of running a function that may panic. -/
inductive Outcome (α : Type) where
  | returned (a : α)
  | panicked (p : Panic)
deriving DecidableEq, Repr

/-- One write to standard output: a text, or an instance printed with `%+v`. -/
inductive Printed where
  | text (s : String)
  | instanceDump (inst : Instance)
deriving DecidableEq, Repr

/-- One call of `SendCommand`: the request and the client options passed. -/
structure Submission (Opt : Type) where
  input : SendCommandInput
  optFns : List Opt

/-- Observable state: the run-command service, the calls made to it (oldest
first) and standard output (oldest first). -/
structure World (σ Opt : Type) where
  service : σ
  sent : List (Submission Opt)
  stdout : List Printed

/-- The `SSMRunCommand` interface: any service behaviour, as a function of the
service state, the request and the options, giving the `(output, error)` pair
(a nil pointer or a nil error is `none`) and the next service state. -/
structure SSMRunCommand (σ Opt Out Err : Type) where
  SendCommand : σ → SendCommandInput → List Opt → (Option Out × Option Err) × σ

/-- The compute-inventory side used by `RunLocustWorkerCommand`:
`config.LoadDefaultConfig` (an error message when it fails) and the answer of
`DescribeInstances` (an error message, or the reservations). -/
structure Ec2Service where
  loadDefaultConfig : Option String
  describeInstances : Except String (List Reservation)

/-- An inventory service that loads its configuration and answers with `inv`. -/
def Ec2Service.serving (inv : List Reservation) : Ec2Service :=
  { loadDefaultConfig := none, describeInstances := .ok inv }

variable {σ Opt Out Err : Type}

/-- Writes to standard output (`fmt.Println`, `fmt.Printf`). -/
def World.print (w : World σ Opt) (p : Printed) : World σ Opt :=
  { w with stdout := w.stdout ++ [p] }

/-- The call `client.SendCommand(ctx, input, optFns...)`: the service answers and
the call is logged. -/
def callSendCommand (client : SSMRunCommand σ Opt Out Err) (input : SendCommandInput)
    (optFns : List Opt) (w : World σ Opt) : (Option Out × Option Err) × World σ Opt :=
  let r := client.SendCommand w.service input optFns
  (r.1, { w with service := r.2, sent := w.sent ++ [{ input := input, optFns := optFns }] })

/-! ## The six operations -/

/-- `GitPullCommand`: pull the Git repository for Locust scripts. -/
def GitPullCommand (getenv : Environment) (repo : String)
    (client : SSMRunCommand σ Opt Out Err) (_optFns : List Opt) (w : World σ Opt) :
    (Option Out × Option Err) × World σ Opt :=
  let branch := getenv "GIT_BRANCH"
  let userName := getenv "GIT_USERNAME"
  let token := getenv "GIT_TOKEN"
  let w := w.print (.text ("Pulling git repo: " ++ repo ++ "\n"))
  callSendCommand client
    { DocumentName := awsString "AWS-RunShellScript"
      Comment := awsString "Git Pull"
      Parameters := [("commands",
        ["cd /opt/locust",
         "git clone -b " ++ branch ++ " https://" ++ userName ++ ":" ++ token ++ "@" ++ repo])]
      Targets := [{ Key := awsString "tag:Locust", Values := ["true"] }] }
    [] w

/-- `RunLocustMasterCommand`: run the Locust master service. -/
def RunLocustMasterCommand (getenv : Environment)
    (client : SSMRunCommand σ Opt Out Err) (optFns : List Opt) (w : World σ Opt) :
    (Option Out × Option Err) × World σ Opt :=
  let scriptPath := getenv "SCRIPT_PATH"
  let webPort := getenv "LOCUST_WEB_PORT"
  callSendCommand client
    { DocumentName := awsString "AWS-RunShellScript"
      Comment := awsString "Run Locust Master"
      Parameters := [("commands",
        ["cd /opt/locust",
         "cd $(ls -d */|head -n 1)",
         "git fetch && git pull",
         "screen -dm bash -c 'locust -f " ++ scriptPath ++ " --web-port=" ++ webPort
           ++ " --master'"])]
      Targets := [{ Key := awsString "tag:LocustState", Values := ["master"] }] }
    optFns w

/-- The request of `RunLocustWorkerCommand` once the master address is known. -/
def workerInput (scriptPath : String) (privateIp : String) : SendCommandInput :=
  { DocumentName := awsString "AWS-RunShellScript"
    Comment := awsString "Run Locust Workers"
    Parameters := [("commands",
      ["cd /opt/locust",
       "cd $(ls -d */|head -n 1)",
       "git fetch && git pull",
       "screen -dm bash -c 'locust -f " ++ scriptPath ++ " --master-host=" ++ privateIp
         ++ " --worker'"])]
    Targets := [{ Key := awsString "tag:LocustState", Values := ["worker"] }] }

/-- Innermost loop of `RunLocustWorkerCommand`, `for _, tag := range instance.Tags`.
`none` means the loop ended without leaving the function. The test
`*tag.Key == "LocustState" && *tag.Value == "master"` dereferences the key, and
the value only when the key matches. On a match the success line is printed,
then the request is built (dereferencing the private address) and sent. -/
def scanTags (scriptPath : String) (client : SSMRunCommand σ Opt Out Err) (inst : Instance) :
    List Tag → World σ Opt → Option (Outcome (Option Out × Option Err)) × World σ Opt
  | [], w => (none, w)
  | tag :: rest, w =>
    match tag.Key with
    | none => (some (.panicked .nilDereference), w)
    | some key =>
      if key = "LocustState" then
        match tag.Value with
        | none => (some (.panicked .nilDereference), w)
        | some value =>
          if value = "master" then
            let w := w.print (.text "Worker run command sent successfully.\n")
            match inst.PrivateIpAddress with
            | none => (some (.panicked .nilDereference), w)
            | some privateIp =>
              let r := callSendCommand client (workerInput scriptPath privateIp) [] w
              (some (.returned r.1), r.2)
          else scanTags scriptPath client inst rest w
      else scanTags scriptPath client inst rest w

/-- Middle loop, `for _, instance := range reservation.Instances`: each instance is
printed, then its tags are scanned. -/
def scanInstances (scriptPath : String) (client : SSMRunCommand σ Opt Out Err) :
    List Instance → World σ Opt → Option (Outcome (Option Out × Option Err)) × World σ Opt
  | [], w => (none, w)
  | inst :: rest, w =>
    let w := w.print (.instanceDump inst)
    match scanTags scriptPath client inst inst.Tags w with
    | (some r, w) => (some r, w)
    | (none, w) => scanInstances scriptPath client rest w

/-- Outer loop, `for _, reservation := range result.Reservations`. -/
def scanReservations (scriptPath : String) (client : SSMRunCommand σ Opt Out Err) :
    List Reservation → World σ Opt → Option (Outcome (Option Out × Option Err)) × World σ Opt
  | [], w => (none, w)
  | reservation :: rest, w =>
    match scanInstances scriptPath client reservation.Instances w with
    | (some r, w) => (some r, w)
    | (none, w) => scanReservations scriptPath client rest w

/-- `RunLocustWorkerCommand`: run the Locust worker services. The final
`return nil, err` is reached only with `err == nil` (a non-nil `err` has
panicked before the loops), so it returns `(nil, nil)`. -/
def RunLocustWorkerCommand (getenv : Environment) (ec2 : Ec2Service)
    (client : SSMRunCommand σ Opt Out Err) (_optFns : List Opt) (w : World σ Opt) :
    Outcome (Option Out × Option Err) × World σ Opt :=
  let scriptPath := getenv "SCRIPT_PATH"
  let w := w.print (.text "Running workers...\n")
  match ec2.loadDefaultConfig with
  | some msg => (.panicked (.explicit ("AWS configuration error, " ++ msg)), w)
  | none =>
    match ec2.describeInstances with
    | .error msg => (.panicked (.explicit ("Error describing instances, " ++ msg)), w)
    | .ok reservations =>
      match scanReservations scriptPath client reservations w with
      | (some r, w) => (r, w)
      | (none, w) => (.returned (none, none), w)

/-- `RePullGitRepoCommand`: repull the git repository. -/
def RePullGitRepoCommand
    (client : SSMRunCommand σ Opt Out Err) (optFns : List Opt) (w : World σ Opt) :
    (Option Out × Option Err) × World σ Opt :=
  callSendCommand client
    { DocumentName := awsString "AWS-RunShellScript"
      Comment := awsString "Re-Pull Git Repo"
      Parameters := [("commands",
        ["cd /opt/locust",
         "cd $(ls -d */|head -n 1)",
         "git fetch",
         "git pull"])]
      Targets := [{ Key := awsString "tag:Locust", Values := ["true"] }] }
    optFns w

/-- `StopLocustWorkerCommand`: stop the Locust worker services. -/
def StopLocustWorkerCommand
    (client : SSMRunCommand σ Opt Out Err) (optFns : List Opt) (w : World σ Opt) :
    (Option Out × Option Err) × World σ Opt :=
  let w := w.print (.text "Stopping workers...\n")
  callSendCommand client
    { DocumentName := awsString "AWS-RunShellScript"
      Comment := awsString "Stop Locust Worker"
      Parameters := [("commands", ["sudo pkill screen"])]
      Targets := [{ Key := awsString "tag:LocustState", Values := ["worker"] }] }
    optFns w

/-- `StopLocustMasterCommand`: stop the Locust master service. -/
def StopLocustMasterCommand
    (client : SSMRunCommand σ Opt Out Err) (optFns : List Opt) (w : World σ Opt) :
    (Option Out × Option Err) × World σ Opt :=
  let w := w.print (.text "Stopping Locust Master...\n")
  callSendCommand client
    { DocumentName := awsString "AWS-RunShellScript"
      Comment := awsString "Stop Locust Master"
      Parameters := [("commands", ["sudo pkill screen"])]
      Targets := [{ Key := awsString "tag:LocustState", Values := ["master"] }] }
    optFns w

/-- The `Action` of `stop all` in `main`: the error it returns (`none` for nil)
and the world afterwards. Both operations are called without options. -/
def stopAllAction (client : SSMRunCommand σ Opt Out Err) (w : World σ Opt) :
    Option Err × World σ Opt :=
  let r := StopLocustMasterCommand client [] w
  match r.1.2 with
  | some err => (some err, r.2)
  | none =>
    let r := StopLocustWorkerCommand client [] r.2
    match r.1.2 with
    | some err => (some err, r.2)
    | none => (none, r.2.print (.text "Locust services stop commands sent successfully.\n"))

/-! ## Notions used to state the properties -/

/-- The requests submitted between world `w` and a later world `w'`. -/
def submittedBy (w w' : World σ Opt) : List (Submission Opt) :=
  w'.sent.drop w.sent.length

/-- The tag has key `LocustState` and value `master`. -/
def Tag.isMasterTag (t : Tag) : Bool :=
  t.Key == some "LocustState" && t.Value == some "master"

/-- The instance has a tag with key `LocustState` and value `master`. -/
def Instance.isMaster (inst : Instance) : Bool :=
  inst.Tags.any Tag.isMasterTag

/-- The instances of an inventory in inventory order: reservations in order,
instances within a reservation in order. -/
def inventoryInstances (inv : List Reservation) : List Instance :=
  (inv.map (·.Instances)).flatten

/-- The first instance in inventory order tagged `LocustState=master`. -/
def firstMaster (inv : List Reservation) : Option Instance :=
  (inventoryInstances inv).find? Instance.isMaster

/-- Every tag of the inventory carries a key and a value (neither pointer is
nil), as tags of the inventory service do. -/
def tagsPresent (inv : List Reservation) : Bool :=
  (inventoryInstances inv).all fun inst =>
    inst.Tags.all fun t => t.Key.isSome && t.Value.isSome

/-- The last line of the `commands` parameter of a request. -/
def lastCommand (input : SendCommandInput) : Option String :=
  (input.Parameters.lookup "commands").bind List.getLast?

/-- World `w'` differs from `w` at most in standard output. -/
def World.sameService (w w' : World σ Opt) : Prop :=
  w'.service = w.service ∧ w'.sent = w.sent

/-- What `scanTags` does at a matching tag. -/
def onMatch (scriptPath : String) (client : SSMRunCommand σ Opt Out Err) (inst : Instance)
    (w : World σ Opt) : Option (Outcome (Option Out × Option Err)) × World σ Opt :=
  let w := w.print (.text "Worker run command sent successfully.\n")
  match inst.PrivateIpAddress with
  | none => (some (.panicked .nilDereference), w)
  | some privateIp =>
    let r := callSendCommand client (workerInput scriptPath privateIp) [] w
    (some (.returned r.1), r.2)

/-- What a scan can leave behind, whatever the inventory: nothing sent (the loop
ended or the program panicked), or exactly one worker request, sent without
options, whose answer is returned. -/
def ScanShape (scriptPath : String) (client : SSMRunCommand σ Opt Out Err) (w : World σ Opt)
    (r : Option (Outcome (Option Out × Option Err)) × World σ Opt) : Prop :=
  (w.sameService r.2 ∧ (r.1 = none ∨ ∃ p, r.1 = some (.panicked p))) ∨
  ∃ privateIp,
    r.1 = some (.returned (client.SendCommand w.service (workerInput scriptPath privateIp) []).1) ∧
    r.2.sent = w.sent ++ [{ input := workerInput scriptPath privateIp, optFns := [] }] ∧
    r.2.service = (client.SendCommand w.service (workerInput scriptPath privateIp) []).2

/-- The run `r` from world `w` called `SendCommand` exactly once and returned
the pair that call gave. -/
def DispatchesOnce (client : SSMRunCommand σ Opt Out Err) (w : World σ Opt)
    (r : (Option Out × Option Err) × World σ Opt) : Prop :=
  ∃ input opts,
    r.1 = (client.SendCommand w.service input opts).1 ∧
    r.2.service = (client.SendCommand w.service input opts).2 ∧
    r.2.sent = w.sent ++ [{ input := input, optFns := opts }]

/-- The run `r` from world `w` called `SendCommand` exactly once, with the
options `opts`, and returned the pair that call gave. -/
def DispatchesWith (client : SSMRunCommand σ Opt Out Err) (w : World σ Opt) (opts : List Opt)
    (r : (Option Out × Option Err) × World σ Opt) : Prop :=
  ∃ input,
    r.1 = (client.SendCommand w.service input opts).1 ∧
    r.2.service = (client.SendCommand w.service input opts).2 ∧
    r.2.sent = w.sent ++ [{ input := input, optFns := opts }]

/-- The request of `StopLocustMasterCommand`. -/
def stopMasterInput : SendCommandInput :=
  { DocumentName := some "AWS-RunShellScript"
    Comment := some "Stop Locust Master"
    Parameters := [("commands", ["sudo pkill screen"])]
    Targets := [{ Key := some "tag:LocustState", Values := ["master"] }] }

/-- The request of `StopLocustWorkerCommand`. -/
def stopWorkerInput : SendCommandInput :=
  { DocumentName := some "AWS-RunShellScript"
    Comment := some "Stop Locust Worker"
    Parameters := [("commands", ["sudo pkill screen"])]
    Targets := [{ Key := some "tag:LocustState", Values := ["worker"] }] }

/-- The `commands` parameter of a request. -/
def commandsOf (input : SendCommandInput) : Option (List String) :=
  input.Parameters.lookup "commands"

/-! ## Sample data -/

/-- A configuration with every value set. -/
def sampleEnv : Environment := fun name =>
  if name = "GIT_BRANCH" then "main"
  else if name = "GIT_USERNAME" then "dev"
  else if name = "GIT_TOKEN" then "t0k3n"
  else if name = "SCRIPT_PATH" then "load.py"
  else if name = "LOCUST_WEB_PORT" then "8089"
  else ""

/-- A configuration with no value set. -/
def emptyEnv : Environment := fun _ => ""

/-- A run-command service that accepts every request and numbers its invocations. -/
def acceptingClient : SSMRunCommand Nat Nat Nat String :=
  { SendCommand := fun n _ _ => ((some n, none), n + 1) }

/-- A run-command service that refuses every request with the error `e`. -/
def refusingClient (e : String) : SSMRunCommand Nat Nat Nat String :=
  { SendCommand := fun n _ _ => ((none, some e), n + 1) }

/-- A run-command service that accepts its first request and refuses the later
ones with the error `e`. -/
def acceptOnceClient (e : String) : SSMRunCommand Nat Nat Nat String :=
  { SendCommand := fun n _ _ => (if n = 0 then (some n, none) else (none, some e), n + 1) }

/-- A fresh world: no request sent, nothing printed. -/
def freshWorld : World Nat Nat := { service := 0, sent := [], stdout := [] }

/-- A worker of the fleet. -/
def sampleWorker : Instance :=
  { Tags := [⟨some "Locust", some "true"⟩, ⟨some "LocustState", some "worker"⟩]
    PrivateIpAddress := some "10.0.0.7" }

/-- A master that does not carry the fleet tag. -/
def sampleMaster : Instance :=
  { Tags := [⟨some "Name", some "locust-master"⟩, ⟨some "LocustState", some "master"⟩]
    PrivateIpAddress := some "10.0.0.5" }

/-- A second master, with the fleet tag, later in the inventory. -/
def otherMaster : Instance :=
  { Tags := [⟨some "Locust", some "true"⟩, ⟨some "LocustState", some "master"⟩]
    PrivateIpAddress := some "10.0.0.9" }

/-- A master whose private address is not assigned. -/
def addresslessMaster : Instance :=
  { Tags := [⟨some "Locust", some "true"⟩, ⟨some "LocustState", some "master"⟩]
    PrivateIpAddress := none }

/-- An inventory with a worker and two masters, in two reservations. -/
def twoMasterInventory : List Reservation :=
  [⟨[sampleWorker, sampleMaster]⟩, ⟨[otherMaster]⟩]

/-- An inventory with a worker only. -/
def workerOnlyInventory : List Reservation := [⟨[sampleWorker]⟩]

/-- An inventory whose only master has no private address yet. -/
def addresslessInventory : List Reservation := [⟨[sampleWorker, addresslessMaster]⟩]

/-! ## Lemmas on the loops of `RunLocustWorkerCommand` -/

theorem sameService_refl (w : World σ Opt) : w.sameService w := ⟨rfl, rfl⟩

theorem sameService_print (w w' : World σ Opt) (p : Printed) (h : w.sameService w') :
    w.sameService (w'.print p) := h

theorem scanTags_eq (scriptPath : String) (client : SSMRunCommand σ Opt Out Err)
    (inst : Instance) (tags : List Tag) (w : World σ Opt)
    (hp : ∀ t ∈ tags, (t.Key.isSome && t.Value.isSome) = true) :
    scanTags scriptPath client inst tags w
      = if tags.any Tag.isMasterTag then onMatch scriptPath client inst w else (none, w) := by
  induction tags with
  | nil => simp [scanTags]
  | cons t rest ih =>
    have ht := hp t (List.mem_cons_self _ _)
    have ih := ih (fun t h => hp t (List.mem_cons_of_mem _ h))
    obtain ⟨k, v⟩ := t
    cases k with
    | none => simp at ht
    | some k =>
      cases v with
      | none => simp at ht
      | some v =>
        by_cases hk : k = "LocustState"
        · by_cases hv : v = "master"
          · simp [scanTags, hk, hv, Tag.isMasterTag, onMatch]
          · simp [scanTags, hk, hv, Tag.isMasterTag, ih]
        · simp [scanTags, hk, Tag.isMasterTag, ih]

theorem scanInstances_eq (scriptPath : String) (client : SSMRunCommand σ Opt Out Err)
    (insts : List Instance) (w : World σ Opt)
    (hp : ∀ inst ∈ insts, ∀ t ∈ inst.Tags, (t.Key.isSome && t.Value.isSome) = true) :
    ∃ w', w.sameService w' ∧
      scanInstances scriptPath client insts w
        = match insts.find? Instance.isMaster with
          | none => (none, w')
          | some inst => onMatch scriptPath client inst w' := by
  induction insts generalizing w with
  | nil => exact ⟨w, sameService_refl w, by simp [scanInstances]⟩
  | cons inst rest ih =>
    have hi := hp inst (List.mem_cons_self _ _)
    have hrest := fun i h => hp i (List.mem_cons_of_mem _ h)
    by_cases hm : inst.isMaster = true
    · refine ⟨w.print (.instanceDump inst), sameService_print w w _ (sameService_refl w), ?_⟩
      have hm2 : inst.Tags.any Tag.isMasterTag = true := hm
      simp only [scanInstances, scanTags_eq scriptPath client inst inst.Tags _ hi, hm2, if_true,
        List.find?_cons, hm]
      unfold onMatch
      cases inst.PrivateIpAddress <;> rfl
    · obtain ⟨w', hw', heq⟩ := ih (w.print (.instanceDump inst)) hrest
      refine ⟨w', hw', ?_⟩
      have hm2 : inst.Tags.any Tag.isMasterTag = false := by
        simpa [Instance.isMaster] using hm
      have hm3 : inst.isMaster = false := by simpa using hm
      simp only [scanInstances, scanTags_eq scriptPath client inst inst.Tags _ hi, hm2,
        List.find?_cons, hm3]
      simpa using heq

theorem scanReservations_eq (scriptPath : String) (client : SSMRunCommand σ Opt Out Err)
    (inv : List Reservation) (w : World σ Opt) (hp : tagsPresent inv = true) :
    ∃ w', w.sameService w' ∧
      scanReservations scriptPath client inv w
        = match firstMaster inv with
          | none => (none, w')
          | some inst => onMatch scriptPath client inst w' := by
  induction inv generalizing w with
  | nil =>
    exact ⟨w, sameService_refl w, by simp [scanReservations, firstMaster, inventoryInstances]⟩
  | cons r rest ih =>
    have hp1 : ∀ inst ∈ r.Instances, ∀ t ∈ inst.Tags,
        (t.Key.isSome && t.Value.isSome) = true := by
      intro inst hi t ht
      simp only [tagsPresent, inventoryInstances, List.map_cons, List.flatten_cons,
        List.all_append, Bool.and_eq_true, List.all_eq_true] at hp
      simpa using hp.1 inst hi t ht
    have hp2 : tagsPresent rest = true := by
      simp only [tagsPresent, inventoryInstances, List.map_cons, List.flatten_cons,
        List.all_append, Bool.and_eq_true] at hp
      exact hp.2
    obtain ⟨w1, hw1, h1⟩ := scanInstances_eq scriptPath client r.Instances w hp1
    have hfm : firstMaster (r :: rest)
        = (r.Instances.find? Instance.isMaster).or (firstMaster rest) := by
      simp [firstMaster, inventoryInstances, List.find?_append]
    cases hf : r.Instances.find? Instance.isMaster with
    | some inst =>
      refine ⟨w1, hw1, ?_⟩
      rw [hf] at h1
      rw [hfm, hf]
      simp only [scanReservations, h1, Option.or_some]
      unfold onMatch
      cases inst.PrivateIpAddress <;> rfl
    | none =>
      rw [hf] at h1
      obtain ⟨w2, hw2, h2⟩ := ih w1 hp2
      refine ⟨w2, ⟨hw2.1.trans hw1.1, hw2.2.trans hw1.2⟩, ?_⟩
      rw [hfm, hf]
      simp only [scanReservations, h1, Option.none_or]
      exact h2

/-- With all tags present, `RunLocustWorkerCommand` is decided by the first
master of the inventory: none, and it returns `(nil, nil)`; one, and it prints
its success line, then panics on an absent address or sends the request. -/
theorem runWorker_eq (getenv : Environment) (client : SSMRunCommand σ Opt Out Err)
    (optFns : List Opt) (inv : List Reservation) (w : World σ Opt)
    (hp : tagsPresent inv = true) :
    ∃ w', w.sameService w' ∧
      RunLocustWorkerCommand getenv (Ec2Service.serving inv) client optFns w
        = match firstMaster inv with
          | none => (.returned (none, none), w')
          | some inst =>
            match inst.PrivateIpAddress with
            | none =>
              (.panicked .nilDereference,
                w'.print (.text "Worker run command sent successfully.\n"))
            | some privateIp =>
              ((Outcome.returned
                  (callSendCommand client (workerInput (getenv "SCRIPT_PATH") privateIp) []
                    (w'.print (.text "Worker run command sent successfully.\n"))).1),
                (callSendCommand client (workerInput (getenv "SCRIPT_PATH") privateIp) []
                    (w'.print (.text "Worker run command sent successfully.\n"))).2) := by
  obtain ⟨w1, hw1, h1⟩ := scanReservations_eq (getenv "SCRIPT_PATH") client inv
    (w.print (.text "Running workers...\n")) hp
  refine ⟨w1, hw1, ?_⟩
  cases hf : firstMaster inv with
  | none =>
    rw [hf] at h1
    simp [RunLocustWorkerCommand, Ec2Service.serving, h1]
  | some inst =>
    rw [hf] at h1
    simp only [RunLocustWorkerCommand, Ec2Service.serving, h1]
    unfold onMatch
    cases inst.PrivateIpAddress <;> rfl

theorem scanShape_of_same (scriptPath : String) (client : SSMRunCommand σ Opt Out Err)
    (w w1 : World σ Opt) (r : Option (Outcome (Option Out × Option Err)) × World σ Opt)
    (h : w.sameService w1) (hr : ScanShape scriptPath client w1 r) :
    ScanShape scriptPath client w r := by
  rcases hr with ⟨hs, hn⟩ | ⟨ip, h1, h2, h3⟩
  · exact Or.inl ⟨⟨hs.1.trans h.1, hs.2.trans h.2⟩, hn⟩
  · refine Or.inr ⟨ip, ?_, ?_, ?_⟩
    · rw [h1, h.1]
    · rw [h2, h.2]
    · rw [h3, h.1]

theorem scanTags_shape (scriptPath : String) (client : SSMRunCommand σ Opt Out Err)
    (inst : Instance) (tags : List Tag) (w : World σ Opt) :
    ScanShape scriptPath client w (scanTags scriptPath client inst tags w) := by
  induction tags with
  | nil => exact Or.inl ⟨sameService_refl w, Or.inl rfl⟩
  | cons t rest ih =>
    obtain ⟨k, v⟩ := t
    cases k with
    | none => exact Or.inl ⟨sameService_refl w, Or.inr ⟨_, rfl⟩⟩
    | some k =>
      by_cases hk : k = "LocustState"
      · cases v with
        | none =>
          simp only [scanTags, hk, if_true]
          exact Or.inl ⟨sameService_refl w, Or.inr ⟨_, rfl⟩⟩
        | some v =>
          by_cases hv : v = "master"
          · simp only [scanTags, hk, hv, if_true]
            cases hip : inst.PrivateIpAddress with
            | none => exact Or.inl ⟨sameService_refl w, Or.inr ⟨_, rfl⟩⟩
            | some ip => exact Or.inr ⟨ip, rfl, rfl, rfl⟩
          · simp only [scanTags, hk, hv, if_true, if_false]
            exact ih
      · simp only [scanTags, hk, if_false]
        exact ih

theorem scanInstances_shape (scriptPath : String) (client : SSMRunCommand σ Opt Out Err)
    (insts : List Instance) (w : World σ Opt) :
    ScanShape scriptPath client w (scanInstances scriptPath client insts w) := by
  induction insts generalizing w with
  | nil => exact Or.inl ⟨sameService_refl w, Or.inl rfl⟩
  | cons inst rest ih =>
    have h1 := scanTags_shape scriptPath client inst inst.Tags (w.print (.instanceDump inst))
    have h1 := scanShape_of_same scriptPath client w _ _
      (sameService_print w w _ (sameService_refl w)) h1
    simp only [scanInstances]
    generalize scanTags scriptPath client inst inst.Tags (w.print (.instanceDump inst)) = r at h1
    obtain ⟨o, w1⟩ := r
    cases o with
    | some res => exact h1
    | none =>
      rcases h1 with ⟨hs, _⟩ | ⟨ip, h, _, _⟩
      · exact scanShape_of_same scriptPath client w w1 _ hs (ih w1)
      · simp at h

theorem scanReservations_shape (scriptPath : String) (client : SSMRunCommand σ Opt Out Err)
    (inv : List Reservation) (w : World σ Opt) :
    ScanShape scriptPath client w (scanReservations scriptPath client inv w) := by
  induction inv generalizing w with
  | nil => exact Or.inl ⟨sameService_refl w, Or.inl rfl⟩
  | cons r rest ih =>
    have h1 := scanInstances_shape scriptPath client r.Instances w
    simp only [scanReservations]
    generalize scanInstances scriptPath client r.Instances w = res at h1
    obtain ⟨o, w1⟩ := res
    cases o with
    | some res => exact h1
    | none =>
      rcases h1 with ⟨hs, _⟩ | ⟨ip, h, _, _⟩
      · exact scanShape_of_same scriptPath client w w1 _ hs (ih w1)
      · simp at h

/-- Whatever the inventory service answers, `RunLocustWorkerCommand` either sends
nothing, or sends exactly one worker request, without options, and returns the
answer of the run-command service to it. -/
theorem runWorker_shape (getenv : Environment) (ec2 : Ec2Service)
    (client : SSMRunCommand σ Opt Out Err) (optFns : List Opt) (w : World σ Opt) :
    (RunLocustWorkerCommand getenv ec2 client optFns w).2.sent = w.sent ∨
    ∃ privateIp,
      (RunLocustWorkerCommand getenv ec2 client optFns w).1
        = .returned
            (client.SendCommand w.service (workerInput (getenv "SCRIPT_PATH") privateIp) []).1 ∧
      (RunLocustWorkerCommand getenv ec2 client optFns w).2.sent
        = w.sent ++ [{ input := workerInput (getenv "SCRIPT_PATH") privateIp, optFns := [] }] := by
  unfold RunLocustWorkerCommand
  cases ec2.loadDefaultConfig with
  | some msg => exact Or.inl rfl
  | none =>
    cases ec2.describeInstances with
    | error msg => exact Or.inl rfl
    | ok inv =>
      have h := scanReservations_shape (getenv "SCRIPT_PATH") client inv
        (w.print (.text "Running workers...\n"))
      have h := scanShape_of_same (getenv "SCRIPT_PATH") client w _ _
        (sameService_print w w _ (sameService_refl w)) h
      simp only
      generalize scanReservations (getenv "SCRIPT_PATH") client inv
        (w.print (.text "Running workers...\n")) = res at h
      obtain ⟨o, w1⟩ := res
      rcases h with ⟨hs, hn⟩ | ⟨ip, h1, h2, _⟩
      · left
        cases o with
        | none => exact hs.2
        | some x => exact hs.2
      · right
        simp only at h1 h2
        subst h1
        exact ⟨ip, rfl, h2⟩

/-! ## Role resolution in `RunLocustWorkerCommand` -/

/-- C1: when every tag of the inventory carries its key and value, and the first
instance in inventory order tagged `LocustState=master` has private address `A`,
`RunLocustWorkerCommand` sends exactly one request, whose last command line is
`screen -dm bash -c 'locust -f <SCRIPT_PATH> --master-host=<A> --worker'`, and
returns the answer of the run-command service to it. -/
theorem worker_resolves_first_master (getenv : Environment)
    (client : SSMRunCommand σ Opt Out Err) (optFns : List Opt) (w : World σ Opt)
    (inv : List Reservation) (inst : Instance) (A : String)
    (hp : tagsPresent inv = true) (hfirst : firstMaster inv = some inst)
    (haddr : inst.PrivateIpAddress = some A) :
    ∃ input,
      lastCommand input
        = some ("screen -dm bash -c 'locust -f " ++ getenv "SCRIPT_PATH"
            ++ " --master-host=" ++ A ++ " --worker'") ∧
      (RunLocustWorkerCommand getenv (Ec2Service.serving inv) client optFns w).1
        = .returned (client.SendCommand w.service input []).1 ∧
      (RunLocustWorkerCommand getenv (Ec2Service.serving inv) client optFns w).2.sent
        = w.sent ++ [{ input := input, optFns := [] }] ∧
      (RunLocustWorkerCommand getenv (Ec2Service.serving inv) client optFns w).2.service
        = (client.SendCommand w.service input []).2 := by
  obtain ⟨w1, hw1, h⟩ := runWorker_eq getenv client optFns inv w hp
  rw [hfirst] at h
  simp only [haddr] at h
  refine ⟨workerInput (getenv "SCRIPT_PATH") A, ?_, ?_, ?_, ?_⟩
  · simp [lastCommand, workerInput, List.lookup]
  · rw [h]; simp [callSendCommand, World.print, hw1.1]
  · rw [h]; simp [callSendCommand, World.print, hw1.2]
  · rw [h]; simp [callSendCommand, World.print, hw1.1]

/-- Witness of C1: in an inventory with a worker and two masters, the first master
(which lacks the fleet tag) at `10.0.0.5` is the one resolved. -/
theorem worker_resolves_first_master_witness :
    tagsPresent twoMasterInventory = true ∧
    firstMaster twoMasterInventory = some sampleMaster ∧
    sampleMaster.PrivateIpAddress = some "10.0.0.5" ∧
    ∃ input,
      lastCommand input
        = some ("screen -dm bash -c 'locust -f " ++ sampleEnv "SCRIPT_PATH"
            ++ " --master-host=" ++ "10.0.0.5" ++ " --worker'") ∧
      (RunLocustWorkerCommand sampleEnv (Ec2Service.serving twoMasterInventory)
          acceptingClient [7] freshWorld).1
        = .returned (acceptingClient.SendCommand freshWorld.service input []).1 ∧
      (RunLocustWorkerCommand sampleEnv (Ec2Service.serving twoMasterInventory)
          acceptingClient [7] freshWorld).2.sent
        = freshWorld.sent ++ [{ input := input, optFns := [] }] ∧
      (RunLocustWorkerCommand sampleEnv (Ec2Service.serving twoMasterInventory)
          acceptingClient [7] freshWorld).2.service
        = (acceptingClient.SendCommand freshWorld.service input []).2 :=
  ⟨by decide, by decide, rfl,
    worker_resolves_first_master sampleEnv acceptingClient [7] freshWorld twoMasterInventory
      sampleMaster "10.0.0.5" (by decide) (by decide) rfl⟩

/-- C2: what the code does when no instance is tagged `LocustState=master` (all
tags carrying key and value): `RunLocustWorkerCommand` submits no request and
returns `(nil, nil)`, that is, no error. -/
theorem worker_without_master_returns_no_error (getenv : Environment)
    (client : SSMRunCommand σ Opt Out Err) (optFns : List Opt) (w : World σ Opt)
    (inv : List Reservation)
    (hp : tagsPresent inv = true) (hnone : firstMaster inv = none) :
    (RunLocustWorkerCommand getenv (Ec2Service.serving inv) client optFns w).1
      = .returned (none, none) ∧
    (RunLocustWorkerCommand getenv (Ec2Service.serving inv) client optFns w).2.sent = w.sent ∧
    (RunLocustWorkerCommand getenv (Ec2Service.serving inv) client optFns w).2.service
      = w.service := by
  obtain ⟨w1, hw1, h⟩ := runWorker_eq getenv client optFns inv w hp
  rw [hnone] at h
  rw [h]
  exact ⟨rfl, hw1.2, hw1.1⟩

/-- Witness of C2: with only a worker in the inventory, the operation returns
`(nil, nil)` and sends nothing. -/
theorem worker_without_master_returns_no_error_witness :
    tagsPresent workerOnlyInventory = true ∧
    firstMaster workerOnlyInventory = none ∧
    (RunLocustWorkerCommand sampleEnv (Ec2Service.serving workerOnlyInventory)
        acceptingClient [] freshWorld).1 = .returned (none, none) ∧
    (RunLocustWorkerCommand sampleEnv (Ec2Service.serving workerOnlyInventory)
        acceptingClient [] freshWorld).2.sent = freshWorld.sent ∧
    (RunLocustWorkerCommand sampleEnv (Ec2Service.serving workerOnlyInventory)
        acceptingClient [] freshWorld).2.service = freshWorld.service :=
  ⟨by decide, by decide,
    worker_without_master_returns_no_error sampleEnv acceptingClient [] freshWorld
      workerOnlyInventory (by decide) (by decide)⟩

/-- C3: what the code does when the first instance tagged `LocustState=master` has
no private address (all tags carrying key and value): `RunLocustWorkerCommand`
panics on the nil dereference of the address, its success line being the last
thing printed; no request is submitted and nothing is returned to the caller. -/
theorem worker_addressless_master_panics (getenv : Environment)
    (client : SSMRunCommand σ Opt Out Err) (optFns : List Opt) (w : World σ Opt)
    (inv : List Reservation) (inst : Instance)
    (hp : tagsPresent inv = true) (hfirst : firstMaster inv = some inst)
    (haddr : inst.PrivateIpAddress = none) :
    (RunLocustWorkerCommand getenv (Ec2Service.serving inv) client optFns w).1
      = .panicked .nilDereference ∧
    (RunLocustWorkerCommand getenv (Ec2Service.serving inv) client optFns w).2.sent = w.sent ∧
    (RunLocustWorkerCommand getenv (Ec2Service.serving inv) client optFns w).2.service
      = w.service ∧
    (RunLocustWorkerCommand getenv (Ec2Service.serving inv) client optFns w).2.stdout.getLast?
      = some (.text "Worker run command sent successfully.\n") := by
  obtain ⟨w1, hw1, h⟩ := runWorker_eq getenv client optFns inv w hp
  rw [hfirst] at h
  simp only [haddr] at h
  rw [h]
  exact ⟨rfl, hw1.2, hw1.1, by simp [World.print]⟩

/-- Witness of C3: a master without address, after a worker, makes the operation
panic with nothing sent. -/
theorem worker_addressless_master_panics_witness :
    tagsPresent addresslessInventory = true ∧
    firstMaster addresslessInventory = some addresslessMaster ∧
    addresslessMaster.PrivateIpAddress = none ∧
    (RunLocustWorkerCommand sampleEnv (Ec2Service.serving addresslessInventory)
        acceptingClient [] freshWorld).1 = .panicked .nilDereference ∧
    (RunLocustWorkerCommand sampleEnv (Ec2Service.serving addresslessInventory)
        acceptingClient [] freshWorld).2.sent = freshWorld.sent ∧
    (RunLocustWorkerCommand sampleEnv (Ec2Service.serving addresslessInventory)
        acceptingClient [] freshWorld).2.service = freshWorld.service ∧
    (RunLocustWorkerCommand sampleEnv (Ec2Service.serving addresslessInventory)
        acceptingClient [] freshWorld).2.stdout.getLast?
      = some (.text "Worker run command sent successfully.\n") :=
  ⟨by decide, by decide, rfl,
    worker_addressless_master_panics sampleEnv acceptingClient [] freshWorld
      addresslessInventory addresslessMaster (by decide) (by decide) rfl⟩

/-! ## Requests of the operations -/

theorem submittedBy_append (w w' : World σ Opt) (l : List (Submission Opt))
    (h : w'.sent = w.sent ++ l) : submittedBy w w' = l := by
  simp [submittedBy, h]

theorem submittedBy_same (w w' : World σ Opt) (h : w'.sent = w.sent) : submittedBy w w' = [] := by
  simp [submittedBy, h]

/-- C4: every request submitted by the six operations carries exactly one target
filter, fixed by the role intent: `tag:Locust` = `true` for the two pull
operations, `tag:LocustState` = `master` for the two master operations,
`tag:LocustState` = `worker` for the two worker operations. The five operations
other than `RunLocustWorkerCommand` submit exactly one request. -/
theorem requests_carry_role_target (getenv : Environment) (repo : String) (ec2 : Ec2Service)
    (client : SSMRunCommand σ Opt Out Err) (optFns : List Opt) (w : World σ Opt) :
    (submittedBy w (GitPullCommand getenv repo client optFns w).2).map (·.input.Targets)
      = [[{ Key := some "tag:Locust", Values := ["true"] }]] ∧
    (submittedBy w (RePullGitRepoCommand client optFns w).2).map (·.input.Targets)
      = [[{ Key := some "tag:Locust", Values := ["true"] }]] ∧
    (submittedBy w (RunLocustMasterCommand getenv client optFns w).2).map (·.input.Targets)
      = [[{ Key := some "tag:LocustState", Values := ["master"] }]] ∧
    (submittedBy w (StopLocustMasterCommand client optFns w).2).map (·.input.Targets)
      = [[{ Key := some "tag:LocustState", Values := ["master"] }]] ∧
    (submittedBy w (StopLocustWorkerCommand client optFns w).2).map (·.input.Targets)
      = [[{ Key := some "tag:LocustState", Values := ["worker"] }]] ∧
    ∀ s ∈ submittedBy w (RunLocustWorkerCommand getenv ec2 client optFns w).2,
      s.input.Targets = [{ Key := some "tag:LocustState", Values := ["worker"] }] := by
  refine ⟨?_, ?_, ?_, ?_, ?_, ?_⟩
  · simp [submittedBy, GitPullCommand, callSendCommand, World.print, awsString]
  · simp [submittedBy, RePullGitRepoCommand, callSendCommand, awsString]
  · simp [submittedBy, RunLocustMasterCommand, callSendCommand, awsString]
  · simp [submittedBy, StopLocustMasterCommand, callSendCommand, World.print, awsString]
  · simp [submittedBy, StopLocustWorkerCommand, callSendCommand, World.print, awsString]
  · intro s hs
    rcases runWorker_shape getenv ec2 client optFns w with h | ⟨ip, _, h⟩
    · rw [submittedBy_same _ _ h] at hs
      simp at hs
    · rw [submittedBy_append _ _ _ h] at hs
      simp only [List.mem_singleton] at hs
      subst hs
      rfl

/-- C5: each of the five operations other than `RunLocustWorkerCommand` submits
one request, with document name `AWS-RunShellScript` and a parameter map whose
single key `commands` holds a non-empty list fixed by the configuration alone;
so the start-master command lines are the same for any two runs under the same
configuration, whatever the service, the options and the world. -/
theorem requests_commands_fixed (getenv : Environment) (repo : String)
    (client : SSMRunCommand σ Opt Out Err) (optFns : List Opt) (w : World σ Opt) :
    (submittedBy w (GitPullCommand getenv repo client optFns w).2).map
        (fun s => (s.input.DocumentName, s.input.Parameters))
      = [(some "AWS-RunShellScript", [("commands",
          ["cd /opt/locust",
           "git clone -b " ++ getenv "GIT_BRANCH" ++ " https://" ++ getenv "GIT_USERNAME"
             ++ ":" ++ getenv "GIT_TOKEN" ++ "@" ++ repo])])] ∧
    (submittedBy w (RePullGitRepoCommand client optFns w).2).map
        (fun s => (s.input.DocumentName, s.input.Parameters))
      = [(some "AWS-RunShellScript", [("commands",
          ["cd /opt/locust", "cd $(ls -d */|head -n 1)", "git fetch", "git pull"])])] ∧
    (submittedBy w (RunLocustMasterCommand getenv client optFns w).2).map
        (fun s => (s.input.DocumentName, s.input.Parameters))
      = [(some "AWS-RunShellScript", [("commands",
          ["cd /opt/locust", "cd $(ls -d */|head -n 1)", "git fetch && git pull",
           "screen -dm bash -c 'locust -f " ++ getenv "SCRIPT_PATH" ++ " --web-port="
             ++ getenv "LOCUST_WEB_PORT" ++ " --master'"])])] ∧
    (submittedBy w (StopLocustMasterCommand client optFns w).2).map
        (fun s => (s.input.DocumentName, s.input.Parameters))
      = [(some "AWS-RunShellScript", [("commands", ["sudo pkill screen"])])] ∧
    (submittedBy w (StopLocustWorkerCommand client optFns w).2).map
        (fun s => (s.input.DocumentName, s.input.Parameters))
      = [(some "AWS-RunShellScript", [("commands", ["sudo pkill screen"])])] ∧
    (∀ (client2 : SSMRunCommand σ Opt Out Err) (optFns2 : List Opt) (w2 : World σ Opt),
      (submittedBy w2 (RunLocustMasterCommand getenv client2 optFns2 w2).2).map
          (fun s => s.input.Parameters)
        = (submittedBy w (RunLocustMasterCommand getenv client optFns w).2).map
          (fun s => s.input.Parameters)) := by
  refine ⟨?_, ?_, ?_, ?_, ?_, ?_⟩
  · simp [submittedBy, GitPullCommand, callSendCommand, World.print, awsString]
  · simp [submittedBy, RePullGitRepoCommand, callSendCommand, awsString]
  · simp [submittedBy, RunLocustMasterCommand, callSendCommand, awsString]
  · simp [submittedBy, StopLocustMasterCommand, callSendCommand, World.print, awsString]
  · simp [submittedBy, StopLocustWorkerCommand, callSendCommand, World.print, awsString]
  · intro client2 optFns2 w2
    simp [submittedBy, RunLocustMasterCommand, callSendCommand, awsString]

/-- C7: whatever the run-command service does, each of the five operations other
than `RunLocustWorkerCommand` calls `SendCommand` exactly once and returns the
`(output, error)` pair of that call unchanged; an operation called twice in a
row makes two submissions. -/
theorem operations_dispatch_once (getenv : Environment) (repo : String)
    (client : SSMRunCommand σ Opt Out Err) (optFns : List Opt) (w : World σ Opt) :
    (DispatchesOnce client w (GitPullCommand getenv repo client optFns w) ∧
     DispatchesOnce client w (RePullGitRepoCommand client optFns w) ∧
     DispatchesOnce client w (RunLocustMasterCommand getenv client optFns w) ∧
     DispatchesOnce client w (StopLocustMasterCommand client optFns w) ∧
     DispatchesOnce client w (StopLocustWorkerCommand client optFns w)) ∧
    ((submittedBy w (GitPullCommand getenv repo client optFns
        (GitPullCommand getenv repo client optFns w).2).2).length = 2 ∧
     (submittedBy w (RePullGitRepoCommand client optFns
        (RePullGitRepoCommand client optFns w).2).2).length = 2 ∧
     (submittedBy w (RunLocustMasterCommand getenv client optFns
        (RunLocustMasterCommand getenv client optFns w).2).2).length = 2 ∧
     (submittedBy w (StopLocustMasterCommand client optFns
        (StopLocustMasterCommand client optFns w).2).2).length = 2 ∧
     (submittedBy w (StopLocustWorkerCommand client optFns
        (StopLocustWorkerCommand client optFns w).2).2).length = 2) := by
  refine ⟨⟨?_, ?_, ?_, ?_, ?_⟩, ?_, ?_, ?_, ?_, ?_⟩
  · exact ⟨_, _, rfl, rfl, rfl⟩
  · exact ⟨_, _, rfl, rfl, rfl⟩
  · exact ⟨_, _, rfl, rfl, rfl⟩
  · exact ⟨_, _, rfl, rfl, rfl⟩
  · exact ⟨_, _, rfl, rfl, rfl⟩
  · simp [submittedBy, GitPullCommand, callSendCommand, World.print]
  · simp [submittedBy, RePullGitRepoCommand, callSendCommand]
  · simp [submittedBy, RunLocustMasterCommand, callSendCommand]
  · simp [submittedBy, StopLocustMasterCommand, callSendCommand, World.print]
  · simp [submittedBy, StopLocustWorkerCommand, callSendCommand, World.print]

/-- C10: `RunLocustMasterCommand`, `RePullGitRepoCommand`, `StopLocustWorkerCommand`
and `StopLocustMasterCommand` hand the caller's options to `SendCommand` as they
are; `GitPullCommand` calls it with no options, and so does
`RunLocustWorkerCommand` whenever it calls it. -/
theorem options_passed_or_dropped (getenv : Environment) (repo : String) (ec2 : Ec2Service)
    (client : SSMRunCommand σ Opt Out Err) (optFns : List Opt) (w : World σ Opt) :
    DispatchesWith client w optFns (RunLocustMasterCommand getenv client optFns w) ∧
    DispatchesWith client w optFns (RePullGitRepoCommand client optFns w) ∧
    DispatchesWith client w optFns (StopLocustWorkerCommand client optFns w) ∧
    DispatchesWith client w optFns (StopLocustMasterCommand client optFns w) ∧
    DispatchesWith client w [] (GitPullCommand getenv repo client optFns w) ∧
    ((RunLocustWorkerCommand getenv ec2 client optFns w).2.sent = w.sent ∨
      ∃ input,
        (RunLocustWorkerCommand getenv ec2 client optFns w).1
          = .returned (client.SendCommand w.service input []).1 ∧
        (RunLocustWorkerCommand getenv ec2 client optFns w).2.sent
          = w.sent ++ [{ input := input, optFns := [] }]) := by
  refine ⟨⟨_, rfl, rfl, rfl⟩, ⟨_, rfl, rfl, rfl⟩, ⟨_, rfl, rfl, rfl⟩, ⟨_, rfl, rfl, rfl⟩,
    ⟨_, rfl, rfl, rfl⟩, ?_⟩
  rcases runWorker_shape getenv ec2 client optFns w with h | ⟨ip, h1, h2⟩
  · exact Or.inl h
  · exact Or.inr ⟨_, h1, h2⟩

/-! ## The `stop all` action -/

theorem stopMaster_run (client : SSMRunCommand σ Opt Out Err) (w : World σ Opt) :
    (StopLocustMasterCommand client [] w).1
      = (client.SendCommand w.service stopMasterInput []).1 ∧
    (StopLocustMasterCommand client [] w).2.service
      = (client.SendCommand w.service stopMasterInput []).2 ∧
    (StopLocustMasterCommand client [] w).2.sent
      = w.sent ++ [⟨stopMasterInput, []⟩] ∧
    (StopLocustMasterCommand client [] w).2.stdout
      = w.stdout ++ [.text "Stopping Locust Master...\n"] :=
  ⟨rfl, rfl, rfl, rfl⟩

theorem stopWorker_run (client : SSMRunCommand σ Opt Out Err) (w : World σ Opt) :
    (StopLocustWorkerCommand client [] w).1
      = (client.SendCommand w.service stopWorkerInput []).1 ∧
    (StopLocustWorkerCommand client [] w).2.service
      = (client.SendCommand w.service stopWorkerInput []).2 ∧
    (StopLocustWorkerCommand client [] w).2.sent
      = w.sent ++ [⟨stopWorkerInput, []⟩] ∧
    (StopLocustWorkerCommand client [] w).2.stdout
      = w.stdout ++ [.text "Stopping workers...\n"] :=
  ⟨rfl, rfl, rfl, rfl⟩

theorem stopAll_master_failed (client : SSMRunCommand σ Opt Out Err) (w : World σ Opt)
    (e : Err) (h : (StopLocustMasterCommand client [] w).1.2 = some e) :
    stopAllAction client w = (some e, (StopLocustMasterCommand client [] w).2) := by
  simp only [stopAllAction, h]

theorem stopAll_master_ok (client : SSMRunCommand σ Opt Out Err) (w : World σ Opt)
    (h : (StopLocustMasterCommand client [] w).1.2 = none) :
    stopAllAction client w
      = match (StopLocustWorkerCommand client [] (StopLocustMasterCommand client [] w).2).1.2 with
        | some err =>
          (some err, (StopLocustWorkerCommand client [] (StopLocustMasterCommand client [] w).2).2)
        | none =>
          (none, (StopLocustWorkerCommand client [] (StopLocustMasterCommand client [] w).2).2.print
            (.text "Locust services stop commands sent successfully.\n")) := by
  simp only [stopAllAction, h]

/-- C9: `stop all` submits the stop-master request first and the stop-worker
request second; the stop-worker request is submitted exactly when the
stop-master dispatch returned no error; the action returns the first error met,
and returns no error exactly when both dispatches returned none. Here the
stop-worker dispatch is the one made in the world the stop-master dispatch left. -/
theorem stop_all_sequence (client : SSMRunCommand σ Opt Out Err) (w : World σ Opt) :
    (submittedBy w (stopAllAction client w).2
      = if (StopLocustMasterCommand client [] w).1.2.isNone
        then [⟨stopMasterInput, []⟩, ⟨stopWorkerInput, []⟩] else [⟨stopMasterInput, []⟩]) ∧
    ((stopAllAction client w).1
      = match (StopLocustMasterCommand client [] w).1.2 with
        | some err => some err
        | none =>
          (StopLocustWorkerCommand client [] (StopLocustMasterCommand client [] w).2).1.2) ∧
    ((stopAllAction client w).1 = none ↔
      (StopLocustMasterCommand client [] w).1.2 = none ∧
      (StopLocustWorkerCommand client [] (StopLocustMasterCommand client [] w).2).1.2 = none) := by
  cases hm : (StopLocustMasterCommand client [] w).1.2 with
  | some e =>
    rw [stopAll_master_failed client w e hm]
    refine ⟨?_, rfl, by simp⟩
    simp only [Option.isNone_some, Bool.false_eq_true, if_false]
    exact submittedBy_append _ _ _ (stopMaster_run client w).2.2.1
  | none =>
    rw [stopAll_master_ok client w hm]
    have hsent : (StopLocustWorkerCommand client [] (StopLocustMasterCommand client [] w).2).2.sent
        = w.sent ++ [⟨stopMasterInput, []⟩, ⟨stopWorkerInput, []⟩] := by
      rw [(stopWorker_run client _).2.2.1, (stopMaster_run client w).2.2.1]
      simp
    cases hw : (StopLocustWorkerCommand client [] (StopLocustMasterCommand client [] w).2).1.2 with
    | some e2 =>
      refine ⟨?_, rfl, by simp⟩
      simp only [Option.isNone_none, if_true]
      exact submittedBy_append _ _ _ hsent
    | none =>
      refine ⟨?_, rfl, by simp⟩
      simp only [Option.isNone_none, if_true]
      exact submittedBy_append _ _ _ hsent

/-- C8, counterexample: with a service that accepts the stop-master request and
refuses the stop-worker request with `boom`, `stop all` returns the very value
it returns with a service that refuses the stop-master request with `boom`. -/
theorem stop_all_partial_equals_total :
    (StopLocustMasterCommand (acceptOnceClient "boom") [] freshWorld).1.2 = none ∧
    (StopLocustWorkerCommand (acceptOnceClient "boom") []
      (StopLocustMasterCommand (acceptOnceClient "boom") [] freshWorld).2).1.2 = some "boom" ∧
    (StopLocustMasterCommand (refusingClient "boom") [] freshWorld).1.2 = some "boom" ∧
    (stopAllAction (acceptOnceClient "boom") freshWorld).1
      = (stopAllAction (refusingClient "boom") freshWorld).1 := by
  decide

/-- C8, amended: when the stop-master dispatch succeeds and the stop-worker
dispatch fails with `e`, `stop all` returns `e` itself: not a success, and the
same value as when the stop-master dispatch fails with `e`. The two runs differ
in their trace only: two requests submitted instead of one, and the progress
line `Stopping workers...` on standard output. -/
theorem stop_all_partial_failure (client client2 : SSMRunCommand σ Opt Out Err)
    (w w2 : World σ Opt) (e : Err)
    (hmaster : (StopLocustMasterCommand client [] w).1.2 = none)
    (hworker : (StopLocustWorkerCommand client []
      (StopLocustMasterCommand client [] w).2).1.2 = some e)
    (htotal : (StopLocustMasterCommand client2 [] w2).1.2 = some e) :
    (stopAllAction client w).1 = some e ∧
    (stopAllAction client2 w2).1 = some e ∧
    submittedBy w (stopAllAction client w).2 = [⟨stopMasterInput, []⟩, ⟨stopWorkerInput, []⟩] ∧
    submittedBy w2 (stopAllAction client2 w2).2 = [⟨stopMasterInput, []⟩] ∧
    (stopAllAction client w).2.stdout
      = w.stdout ++ [.text "Stopping Locust Master...\n", .text "Stopping workers...\n"] ∧
    (stopAllAction client2 w2).2.stdout = w2.stdout ++ [.text "Stopping Locust Master...\n"] := by
  have h1 := stopAll_master_ok client w hmaster
  simp only [hworker] at h1
  rw [stopAll_master_failed client2 w2 e htotal, h1]
  refine ⟨rfl, rfl, ?_, ?_, ?_, ?_⟩
  · apply submittedBy_append
    rw [(stopWorker_run client _).2.2.1, (stopMaster_run client w).2.2.1]
    simp
  · exact submittedBy_append _ _ _ (stopMaster_run client2 w2).2.2.1
  · rw [(stopWorker_run client _).2.2.2, (stopMaster_run client w).2.2.2]
    simp
  · exact (stopMaster_run client2 w2).2.2.2

/-- Witness of C8, amended: the accept-once service against the refusing one. -/
theorem stop_all_partial_failure_witness :
    (stopAllAction (acceptOnceClient "boom") freshWorld).1 = some "boom" ∧
    (stopAllAction (refusingClient "boom") freshWorld).1 = some "boom" ∧
    submittedBy freshWorld (stopAllAction (acceptOnceClient "boom") freshWorld).2
      = [⟨stopMasterInput, []⟩, ⟨stopWorkerInput, []⟩] ∧
    submittedBy freshWorld (stopAllAction (refusingClient "boom") freshWorld).2
      = [⟨stopMasterInput, []⟩] ∧
    (stopAllAction (acceptOnceClient "boom") freshWorld).2.stdout
      = freshWorld.stdout
          ++ [.text "Stopping Locust Master...\n", .text "Stopping workers...\n"] ∧
    (stopAllAction (refusingClient "boom") freshWorld).2.stdout
      = freshWorld.stdout ++ [.text "Stopping Locust Master...\n"] :=
  stop_all_partial_failure (acceptOnceClient "boom") (refusingClient "boom")
    freshWorld freshWorld "boom" (by decide) (by decide) (by decide)

/-! ## Configuration values -/

/-- C6, counterexample: with no configuration value set and an empty repository
path, `GitPullCommand` and `RunLocustMasterCommand` each submit their request
and return the success of the service, and `RunLocustWorkerCommand` does the
same once the master is resolved; the command lines carry the empty values. -/
theorem empty_configuration_is_dispatched :
    (GitPullCommand emptyEnv "" acceptingClient [] freshWorld).1 = (some 0, none) ∧
    (submittedBy freshWorld (GitPullCommand emptyEnv "" acceptingClient [] freshWorld).2).map
        (fun s => lastCommand s.input) = [some "git clone -b  https://:@"] ∧
    (RunLocustMasterCommand emptyEnv acceptingClient [] freshWorld).1 = (some 0, none) ∧
    (submittedBy freshWorld (RunLocustMasterCommand emptyEnv acceptingClient [] freshWorld).2).map
        (fun s => lastCommand s.input)
      = [some "screen -dm bash -c 'locust -f  --web-port= --master'"] ∧
    (RunLocustWorkerCommand emptyEnv (Ec2Service.serving twoMasterInventory)
        acceptingClient [] freshWorld).1 = .returned (some 0, none) ∧
    (submittedBy freshWorld (RunLocustWorkerCommand emptyEnv
        (Ec2Service.serving twoMasterInventory) acceptingClient [] freshWorld).2).map
        (fun s => lastCommand s.input)
      = [some "screen -dm bash -c 'locust -f  --master-host=10.0.0.5 --worker'"] := by
  decide

/-- C6, amended: the operations do not check their configuration values. For
every configuration and repository path, empty or unset values included,
`GitPullCommand` and `RunLocustMasterCommand` submit their one request, with the
values interpolated as they are, and return the answer of the service; and so
does `RunLocustWorkerCommand` whenever the first master of the inventory has an
address (all tags carrying key and value). -/
theorem configuration_not_validated (getenv : Environment) (repo : String)
    (client : SSMRunCommand σ Opt Out Err) (optFns : List Opt) (w : World σ Opt)
    (inv : List Reservation) (inst : Instance) (A : String)
    (hp : tagsPresent inv = true) (hfirst : firstMaster inv = some inst)
    (haddr : inst.PrivateIpAddress = some A) :
    (DispatchesOnce client w (GitPullCommand getenv repo client optFns w) ∧
      (submittedBy w (GitPullCommand getenv repo client optFns w).2).map
          (fun s => commandsOf s.input)
        = [some ["cd /opt/locust",
            "git clone -b " ++ getenv "GIT_BRANCH" ++ " https://" ++ getenv "GIT_USERNAME"
              ++ ":" ++ getenv "GIT_TOKEN" ++ "@" ++ repo]]) ∧
    (DispatchesOnce client w (RunLocustMasterCommand getenv client optFns w) ∧
      (submittedBy w (RunLocustMasterCommand getenv client optFns w).2).map
          (fun s => commandsOf s.input)
        = [some ["cd /opt/locust", "cd $(ls -d */|head -n 1)", "git fetch && git pull",
            "screen -dm bash -c 'locust -f " ++ getenv "SCRIPT_PATH" ++ " --web-port="
              ++ getenv "LOCUST_WEB_PORT" ++ " --master'"]]) ∧
    (∃ input,
      commandsOf input
        = some ["cd /opt/locust", "cd $(ls -d */|head -n 1)", "git fetch && git pull",
            "screen -dm bash -c 'locust -f " ++ getenv "SCRIPT_PATH" ++ " --master-host=" ++ A
              ++ " --worker'"] ∧
      (RunLocustWorkerCommand getenv (Ec2Service.serving inv) client optFns w).1
        = .returned (client.SendCommand w.service input []).1 ∧
      (RunLocustWorkerCommand getenv (Ec2Service.serving inv) client optFns w).2.sent
        = w.sent ++ [{ input := input, optFns := [] }]) := by
  refine ⟨⟨⟨_, _, rfl, rfl, rfl⟩, ?_⟩, ⟨⟨_, _, rfl, rfl, rfl⟩, ?_⟩, ?_⟩
  · simp [submittedBy, GitPullCommand, callSendCommand, World.print, commandsOf, List.lookup]
  · simp [submittedBy, RunLocustMasterCommand, callSendCommand, commandsOf, List.lookup]
  · obtain ⟨w1, hw1, h⟩ := runWorker_eq getenv client optFns inv w hp
    rw [hfirst] at h
    simp only [haddr] at h
    refine ⟨workerInput (getenv "SCRIPT_PATH") A, ?_, ?_, ?_⟩
    · simp [commandsOf, workerInput, List.lookup]
    · rw [h]; simp [callSendCommand, World.print, hw1.1]
    · rw [h]; simp [callSendCommand, World.print, hw1.2]

/-- Witness of C6, amended: the empty configuration, an empty repository path and
the inventory with two masters. -/
theorem configuration_not_validated_witness :
    (DispatchesOnce acceptingClient freshWorld
        (GitPullCommand emptyEnv "" acceptingClient [] freshWorld) ∧
      (submittedBy freshWorld (GitPullCommand emptyEnv "" acceptingClient [] freshWorld).2).map
          (fun s => commandsOf s.input)
        = [some ["cd /opt/locust",
            "git clone -b " ++ emptyEnv "GIT_BRANCH" ++ " https://" ++ emptyEnv "GIT_USERNAME"
              ++ ":" ++ emptyEnv "GIT_TOKEN" ++ "@" ++ ""]]) ∧
    (DispatchesOnce acceptingClient freshWorld
        (RunLocustMasterCommand emptyEnv acceptingClient [] freshWorld) ∧
      (submittedBy freshWorld (RunLocustMasterCommand emptyEnv acceptingClient [] freshWorld).2).map
          (fun s => commandsOf s.input)
        = [some ["cd /opt/locust", "cd $(ls -d */|head -n 1)", "git fetch && git pull",
            "screen -dm bash -c 'locust -f " ++ emptyEnv "SCRIPT_PATH" ++ " --web-port="
              ++ emptyEnv "LOCUST_WEB_PORT" ++ " --master'"]]) ∧
    (∃ input,
      commandsOf input
        = some ["cd /opt/locust", "cd $(ls -d */|head -n 1)", "git fetch && git pull",
            "screen -dm bash -c 'locust -f " ++ emptyEnv "SCRIPT_PATH" ++ " --master-host="
              ++ "10.0.0.5" ++ " --worker'"] ∧
      (RunLocustWorkerCommand emptyEnv (Ec2Service.serving twoMasterInventory)
          acceptingClient [] freshWorld).1
        = .returned (acceptingClient.SendCommand freshWorld.service input []).1 ∧
      (RunLocustWorkerCommand emptyEnv (Ec2Service.serving twoMasterInventory)
          acceptingClient [] freshWorld).2.sent
        = freshWorld.sent ++ [{ input := input, optFns := [] }]) :=
  configuration_not_validated emptyEnv "" acceptingClient [] freshWorld twoMasterInventory
    sampleMaster "10.0.0.5" (by decide) (by decide) rfl

end Liac
